import Mathlib

/-!
Shallow embedding of the GitHub statistics analyzer script
(src/lifetime_github_stats.py) together with proofs about its
rate-limited request client, its three statistics-retrieval strategies,
and the caching cascade in get_repository_stats.

Modelling conventions:
- Machine/float arithmetic is modelled exactly: Python floats (timestamps,
  the delay constants, the code-frequency scaling factor) become rationals,
  and Python int() becomes truncation toward zero (pyInt).
- Network traffic is modelled by a script: a list of the HTTP responses the
  wire would deliver, consumed in order; an exhausted script stands for a
  network-level failure, which the code turns into an absent response.
- Sleeps and issued requests are recorded in an event trace so that timing
  and retry behaviour is observable.
- Python dictionaries read with .get are modelled with Option fields
  (None for a missing key); dictionaries read by direct indexing are
  modelled as association lists, with a KeyError becoming Except.error.
-/

namespace LifetimeGithubStats

/-- Constant RATE_LIMIT_DELAY = 1.0: seconds slept between requests. -/
def RATE_LIMIT_DELAY : ℚ := 1

/-- Constant STATS_RETRY_DELAY = 5.0: seconds to wait when stats are being
computed asynchronously by the provider. -/
def STATS_RETRY_DELAY : ℚ := 5

/-- Constant MAX_STATS_RETRIES = 6: maximum retries for the stats APIs. -/
def MAX_STATS_RETRIES : ℕ := 6

/-- Python int() applied to a rational: truncation toward zero. -/
def pyInt (q : ℚ) : ℤ := Int.tdiv q.num q.den

/-- An HTTP response as _make_request inspects it: its status code, whether
the lower-cased body contains the substring rate limit, and the value of the
X-RateLimit-Reset header (0 when the header is absent, matching
headers.get with default 0). -/
structure HttpResponse where
  status : ℕ
  hasRateLimitMarker : Bool
  rateLimitReset : ℤ
  deriving DecidableEq

/-- Observable actions of the request client: issuing a GET with a url and
query parameters, and sleeping for a duration in seconds. -/
inductive NetEvent where
  | get (url : String) (params : List (String × String))
  | sleep (d : ℚ)
  deriving DecidableEq

/-- Outcome of _make_request: the value returned to the caller (none models
Python None), the trace of requests and sleeps performed, the part of the
response script not yet consumed, and the clock after the call. -/
structure MakeRequestResult where
  response : Option HttpResponse
  events : List NetEvent
  remaining : List HttpResponse
  clock : ℚ

/-- Embedding of GitHubStatsAnalyzer._make_request (lines 54-79).
The response script supplies what each session.get delivers; an empty
script models a network exception, which the except branch turns into
None. A 403 whose body carries the rate-limit marker causes a sleep of
max(reset_time - int(time.time()), 60) followed by a recursive retry with
the identical url, params and allow_non_200. Otherwise, when allow_non_200
is true or the status is 200, the response is returned after sleeping
RATE_LIMIT_DELAY; any other status returns None immediately. -/
def _make_request (url : String) (params : List (String × String)) (allow_non_200 : Bool) :
    List HttpResponse → ℚ → MakeRequestResult
  | [], now => ⟨none, [NetEvent.get url params], [], now⟩
  | r :: rest, now =>
    if r.status = 403 ∧ r.hasRateLimitMarker = true then
      let wait : ℤ := max (r.rateLimitReset - pyInt now) 60
      let res := _make_request url params allow_non_200 rest (now + (wait : ℚ))
      ⟨res.response, NetEvent.get url params :: NetEvent.sleep (wait : ℚ) :: res.events,
        res.remaining, res.clock⟩
    else if allow_non_200 = true then
      ⟨some r, [NetEvent.get url params, NetEvent.sleep RATE_LIMIT_DELAY], rest,
        now + RATE_LIMIT_DELAY⟩
    else if r.status = 200 then
      ⟨some r, [NetEvent.get url params, NetEvent.sleep RATE_LIMIT_DELAY], rest,
        now + RATE_LIMIT_DELAY⟩
    else
      ⟨none, [NetEvent.get url params], rest, now⟩

/-- The author object inside a contributor record; login is None when the
login key is missing. -/
structure AuthorData where
  login : Option String
  deriving DecidableEq

/-- One week entry of a contributor record; the a and d fields are None
when the corresponding key is missing (week.get with default 0). -/
structure WeekData where
  a : Option ℤ
  d : Option ℤ
  deriving DecidableEq

/-- One contributor record: author is None when the author key is missing
or null, weeks is None when the weeks key is missing (contributor.get with
default empty list). -/
structure ContributorData where
  author : Option AuthorData
  weeks : Option (List WeekData)
  deriving DecidableEq

/-- A response of the contributor-activity endpoint as the strategy sees it
after _make_request with allow_non_200 = true: a status code and, for a 200,
the parsed JSON body (a list of contributor records; the empty list also
models a falsy body). -/
structure StatsHttp where
  status : ℕ
  contributors : List ContributorData
  deriving DecidableEq

/-- Observable actions of a stats strategy: one poll of its endpoint
(one _make_request call), or a time.sleep of the given duration. -/
inductive StratEvent where
  | poll
  | sleep (d : ℚ)
  deriving DecidableEq

/-- The condition of line 182: author is truthy and author.get('login')
equals self.username. -/
def contributorMatches (username : String) (c : ContributorData) : Bool :=
  match c.author with
  | some au => au.login = some username
  | none => false

/-- Line 183: sum(week.get('a', 0) for week in contributor.get('weeks', [])). -/
def contributorAdditions (c : ContributorData) : ℤ :=
  ((c.weeks.getD []).map (fun w => w.a.getD 0)).sum

/-- Line 184: sum(week.get('d', 0) for week in contributor.get('weeks', [])). -/
def contributorDeletions (c : ContributorData) : ℤ :=
  ((c.weeks.getD []).map (fun w => w.d.getD 0)).sum

/-- The for-loop of lines 180-188: scan the contributor records for the
first one matching the username and return its summed weekly additions and
deletions; (0, 0) when no record matches. -/
def scanContributors (username : String) : List ContributorData → ℤ × ℤ
  | [] => (0, 0)
  | c :: cs =>
    if contributorMatches username c then (contributorAdditions c, contributorDeletions c)
    else scanContributors username cs

/-- The attempt loop of _get_stats_from_contributors_with_retry
(lines 169-212), with the remaining attempt budget as first argument and
the script of _make_request outcomes (none models an absent response) as
second. A 200 parses the body (empty body gives zero, otherwise the
contributor scan); a 202 sleeps STATS_RETRY_DELAY and retries; 204, 422 and
every other status give zero; an exhausted budget gives zero. -/
def contribAttemptLoop (username : String) :
    ℕ → List (Option StatsHttp) → (ℤ × ℤ) × List StratEvent × List (Option StatsHttp)
  | 0, resps => ((0, 0), [], resps)
  | _ + 1, [] => ((0, 0), [StratEvent.poll], [])
  | _ + 1, none :: rest => ((0, 0), [StratEvent.poll], rest)
  | n + 1, some r :: rest =>
    if r.status = 200 then
      if r.contributors = [] then ((0, 0), [StratEvent.poll], rest)
      else (scanContributors username r.contributors, [StratEvent.poll], rest)
    else if r.status = 202 then
      let res := contribAttemptLoop username n rest
      (res.1, StratEvent.poll :: StratEvent.sleep STATS_RETRY_DELAY :: res.2.1, res.2.2)
    else ((0, 0), [StratEvent.poll], rest)

/-- Embedding of GitHubStatsAnalyzer._get_stats_from_contributors_with_retry
(lines 165-212): the attempt loop started with MAX_STATS_RETRIES attempts. -/
def _get_stats_from_contributors_with_retry (username : String)
    (resps : List (Option StatsHttp)) :
    (ℤ × ℤ) × List StratEvent × List (Option StatsHttp) :=
  contribAttemptLoop username MAX_STATS_RETRIES resps

/-- A response of the code-frequency endpoint: a status code and, for a 200,
the parsed weekly data, each week a JSON array of integers
(timestamp, additions, deletions). -/
structure FreqHttp where
  status : ℕ
  weeks : List (List ℤ)
  deriving DecidableEq

/-- A commit object from the repository commit listing; only its presence
matters to the code-frequency strategy (it takes len(commits)). -/
structure CommitStub where
  sha : String
  deriving DecidableEq

/-- Line 237: sum(week[1] for week in frequency_data if len(week) >= 2). -/
def totalWeekAdditions (weeks : List (List ℤ)) : ℤ :=
  ((weeks.filter (fun w => 2 ≤ w.length)).map (fun w => w.getD 1 0)).sum

/-- Line 238: abs(sum(week[2] for week in frequency_data if len(week) >= 3)). -/
def totalWeekDeletions (weeks : List (List ℤ)) : ℤ :=
  |((weeks.filter (fun w => 3 ≤ w.length)).map (fun w => w.getD 2 0)).sum|

/-- The attempt loop of _get_stats_from_code_frequency (lines 218-270).
sample scripts what _get_user_commits_sample returns at a 200 (an absent
response there already yields the empty list inside that helper);
listResp scripts the extra commit-listing request of line 244, none
modelling an absent response. On a 200 with truthy data and a non-empty
sample, the repository-wide totals are scaled by
min(len(sample) / 100, 0.5) and truncated; if the extra request is absent
the strategy falls through to zero. A 202 sleeps STATS_RETRY_DELAY and
retries; every other outcome gives zero. -/
def codeFreqLoop (sample : List CommitStub) (listResp : Option Unit) :
    ℕ → List (Option FreqHttp) → (ℤ × ℤ) × List StratEvent × List (Option FreqHttp)
  | 0, resps => ((0, 0), [], resps)
  | _ + 1, [] => ((0, 0), [StratEvent.poll], [])
  | _ + 1, none :: rest => ((0, 0), [StratEvent.poll], rest)
  | n + 1, some r :: rest =>
    if r.status = 200 then
      (if r.weeks = [] then (0, 0)
       else if sample = [] then (0, 0)
       else
         let total_additions := totalWeekAdditions r.weeks
         let total_deletions := totalWeekDeletions r.weeks
         let user_commits := sample.length
         if 0 < user_commits then
           match listResp with
           | some _ =>
             let scaling_factor : ℚ := min ((user_commits : ℚ) / 100) (1 / 2)
             (pyInt ((total_additions : ℚ) * scaling_factor),
               pyInt ((total_deletions : ℚ) * scaling_factor))
           | none => (0, 0)
         else (0, 0),
       [StratEvent.poll], rest)
    else if r.status = 202 then
      let res := codeFreqLoop sample listResp n rest
      (res.1, StratEvent.poll :: StratEvent.sleep STATS_RETRY_DELAY :: res.2.1, res.2.2)
    else ((0, 0), [StratEvent.poll], rest)

/-- Embedding of GitHubStatsAnalyzer._get_stats_from_code_frequency
(lines 214-270): the attempt loop started with MAX_STATS_RETRIES attempts. -/
def _get_stats_from_code_frequency (sample : List CommitStub) (listResp : Option Unit)
    (resps : List (Option FreqHttp)) :
    (ℤ × ℤ) × List StratEvent × List (Option FreqHttp) :=
  codeFreqLoop sample listResp MAX_STATS_RETRIES resps

/-- A cached value: a JSON object with numeric values, modelled as an
association list so that missing and unknown keys are representable. -/
abbrev CacheDict := List (String × ℚ)

/-- The cache: a JSON object mapping string keys to cached values. -/
abbrev Cache := List (String × CacheDict)

/-- Python dict.get on a cached value: the value at the first occurrence of
the key, none when the key is missing. -/
def dictGet (d : CacheDict) (k : String) : Option ℚ :=
  (d.find? (fun p => p.1 = k)).map (fun p => p.2)

/-- Lookup of a key in the cache (the combination of the membership test
cache_key in self.cache and the read self.cache[cache_key]). -/
def cacheFind (c : Cache) (k : String) : Option CacheDict :=
  (c.find? (fun p => p.1 = k)).map (fun p => p.2)

/-- Python dict assignment self.cache[key] = value: overwrite the first
binding of the key, or append a new binding. -/
def cacheSet : Cache → String → CacheDict → Cache
  | [], k, v => [(k, v)]
  | (k0, v0) :: rest, k, v =>
    if k0 = k then (k, v) :: rest else (k0, v0) :: cacheSet rest k v

/-- Line 137: cache_key = f"repo_stats_{repo_name}_v2". -/
def cacheKeyFor (repoFullName : String) : String :=
  "repo_stats_" ++ repoFullName ++ "_v2"

/-- Line 142: cached_data.get('timestamp', 0). -/
def entryTimestamp (e : CacheDict) : ℚ := (dictGet e "timestamp").getD 0

/-- Outcome of get_repository_stats: the returned pair or the raised
KeyError, the cache mapping after the call, and the list of strategy
indices (1, 2, 3) that were invoked, in order. -/
structure RepoStatsOutcome where
  result : Except String (ℚ × ℚ)
  cache : Cache
  used : List ℕ

/-- The cache-miss condition of get_repository_stats: no entry under the
repository key, or an entry whose age is 86400 seconds or more. -/
def cacheMiss (now : ℚ) (cache : Cache) (repoFullName : String) : Prop :=
  match cacheFind cache (cacheKeyFor repoFullName) with
  | none => True
  | some e => ¬(now - entryTimestamp e < 86400)

/-- Embedding of GitHubStatsAnalyzer.get_repository_stats (lines 134-163).
now models time.time(); the three strategy results are passed as the
values the strategy calls would produce. A fresh cache entry (age strictly
below 86400) is read by direct indexing, so a missing additions or
deletions key raises KeyError; otherwise the strategies are tried in order
1, 2, 3, stopping at the first non-zero pair, and the final pair is stored
under the key with timestamp now. -/
def get_repository_stats (now : ℚ) (cache : Cache) (repoFullName : String)
    (strat1 strat2 strat3 : ℤ × ℤ) : RepoStatsOutcome :=
  let cache_key := cacheKeyFor repoFullName
  let compute : RepoStatsOutcome :=
    let r1 := strat1
    let ru : (ℤ × ℤ) × List ℕ :=
      if r1.1 = 0 ∧ r1.2 = 0 then
        let r2 := strat2
        if r2.1 = 0 ∧ r2.2 = 0 then (strat3, [1, 2, 3]) else (r2, [1, 2])
      else (r1, [1])
    let entry : CacheDict :=
      [("additions", (ru.1.1 : ℚ)), ("deletions", (ru.1.2 : ℚ)), ("timestamp", now)]
    ⟨Except.ok ((ru.1.1 : ℚ), (ru.1.2 : ℚ)), cacheSet cache cache_key entry, ru.2⟩
  match cacheFind cache cache_key with
  | some cached_data =>
    if now - entryTimestamp cached_data < 86400 then
      match dictGet cached_data "additions" with
      | none => ⟨Except.error "KeyError: additions", cache, []⟩
      | some a =>
        match dictGet cached_data "deletions" with
        | none => ⟨Except.error "KeyError: deletions", cache, []⟩
        | some d => ⟨Except.ok (a, d), cache, []⟩
    else compute
  | none => compute

theorem scanContributors_eq_find (username : String) (cs : List ContributorData) :
    scanContributors username cs =
      match cs.find? (contributorMatches username) with
      | some c => (contributorAdditions c, contributorDeletions c)
      | none => (0, 0) := by
  induction cs with
  | nil => rfl
  | cons c cs ih =>
    by_cases h : contributorMatches username c
    · simp [scanContributors, List.find?, h]
    · simp only [Bool.not_eq_true] at h
      simp [scanContributors, List.find?, h, ih]

/-- C1: on a cache miss (no entry, or a stale one), get_repository_stats
tries the strategies in the order contributor-stats (1), code-frequency (2),
commit-sampling (3), stopping at the first whose result has a non-zero
addition or deletion count; when the first two both give (0, 0) the third
result is final even if it is (0, 0); and in every case the final result is
written into the cache under the repository key with timestamp now. -/
theorem cascade_order_and_cache_write (now : ℚ) (cache : Cache) (repo : String)
    (s1 s2 s3 : ℤ × ℤ) (hmiss : cacheMiss now cache repo) :
    (¬(s1.1 = 0 ∧ s1.2 = 0) →
      get_repository_stats now cache repo s1 s2 s3 =
        ⟨Except.ok ((s1.1 : ℚ), (s1.2 : ℚ)),
          cacheSet cache (cacheKeyFor repo)
            [("additions", (s1.1 : ℚ)), ("deletions", (s1.2 : ℚ)), ("timestamp", now)],
          [1]⟩) ∧
    ((s1.1 = 0 ∧ s1.2 = 0) → ¬(s2.1 = 0 ∧ s2.2 = 0) →
      get_repository_stats now cache repo s1 s2 s3 =
        ⟨Except.ok ((s2.1 : ℚ), (s2.2 : ℚ)),
          cacheSet cache (cacheKeyFor repo)
            [("additions", (s2.1 : ℚ)), ("deletions", (s2.2 : ℚ)), ("timestamp", now)],
          [1, 2]⟩) ∧
    ((s1.1 = 0 ∧ s1.2 = 0) → (s2.1 = 0 ∧ s2.2 = 0) →
      get_repository_stats now cache repo s1 s2 s3 =
        ⟨Except.ok ((s3.1 : ℚ), (s3.2 : ℚ)),
          cacheSet cache (cacheKeyFor repo)
            [("additions", (s3.1 : ℚ)), ("deletions", (s3.2 : ℚ)), ("timestamp", now)],
          [1, 2, 3]⟩) := by
  unfold cacheMiss at hmiss
  refine ⟨fun h1 => ?_, fun h1 h2 => ?_, fun h1 h2 => ?_⟩ <;>
    rcases hfind : cacheFind cache (cacheKeyFor repo) with _ | e <;>
      rw [hfind] at hmiss <;> simp only [get_repository_stats, hfind]
  · rw [if_neg h1]
  · rw [if_neg hmiss, if_neg h1]
  · rw [if_pos h1, if_neg h2]
  · rw [if_neg hmiss, if_pos h1, if_neg h2]
  · rw [if_pos h1, if_pos h2]
  · rw [if_neg hmiss, if_pos h1, if_pos h2]

theorem cascade_order_and_cache_write_witness :
    get_repository_stats 100000 [] "r" (0, 0) (0, 0) (7, 3) =
      ⟨Except.ok ((((7, 3) : ℤ × ℤ).1 : ℚ), (((7, 3) : ℤ × ℤ).2 : ℚ)),
        cacheSet [] (cacheKeyFor "r")
          [("additions", (((7, 3) : ℤ × ℤ).1 : ℚ)), ("deletions", (((7, 3) : ℤ × ℤ).2 : ℚ)),
            ("timestamp", 100000)],
        [1, 2, 3]⟩ :=
  (cascade_order_and_cache_write 100000 [] "r" (0, 0) (0, 0) (7, 3)
    True.intro).2.2 ⟨rfl, rfl⟩ ⟨rfl, rfl⟩

/-- C2: a cache entry is reused exactly when it exists and its age is
strictly below 86400 seconds: a fresh entry is returned directly with no
strategy invoked, while a stale entry, or no entry, retriggers the cascade
starting with strategy 1. -/
theorem cache_validity_window (now : ℚ) (cache : Cache) (repo : String)
    (s1 s2 s3 : ℤ × ℤ) :
    (∀ e, cacheFind cache (cacheKeyFor repo) = some e →
      now - entryTimestamp e < 86400 →
      (get_repository_stats now cache repo s1 s2 s3).used = [] ∧
      ∀ a d, dictGet e "additions" = some a → dictGet e "deletions" = some d →
        (get_repository_stats now cache repo s1 s2 s3).result = Except.ok (a, d)) ∧
    (∀ e, cacheFind cache (cacheKeyFor repo) = some e →
      ¬(now - entryTimestamp e < 86400) →
      (get_repository_stats now cache repo s1 s2 s3).used.head? = some 1) ∧
    (cacheFind cache (cacheKeyFor repo) = none →
      (get_repository_stats now cache repo s1 s2 s3).used.head? = some 1) := by
  refine ⟨fun e hfind hfresh => ?_, fun e hfind hstale => ?_, fun hfind => ?_⟩
  · simp only [get_repository_stats, hfind]
    rw [if_pos hfresh]
    constructor
    · cases dictGet e "additions" with
      | none => rfl
      | some a =>
        cases dictGet e "deletions" with
        | none => rfl
        | some d => rfl
    · intro a d ha hd
      rw [ha, hd]
  · simp only [get_repository_stats, hfind]
    rw [if_neg hstale]
    by_cases h1 : s1.1 = 0 ∧ s1.2 = 0
    · by_cases h2 : s2.1 = 0 ∧ s2.2 = 0
      · rw [if_pos h1, if_pos h2]
        rfl
      · rw [if_pos h1, if_neg h2]
        rfl
    · rw [if_neg h1]
      rfl
  · simp only [get_repository_stats, hfind]
    by_cases h1 : s1.1 = 0 ∧ s1.2 = 0
    · by_cases h2 : s2.1 = 0 ∧ s2.2 = 0
      · rw [if_pos h1, if_pos h2]
        rfl
      · rw [if_pos h1, if_neg h2]
        rfl
    · rw [if_neg h1]
      rfl


theorem cache_validity_window_witness :
    (get_repository_stats 100000
        [(cacheKeyFor "r", [("additions", 7), ("deletions", 3), ("timestamp", 100000)])]
        "r" (1, 1) (1, 1) (1, 1)).used = [] ∧
    (get_repository_stats 100000
        [(cacheKeyFor "r", [("additions", 7), ("deletions", 3), ("timestamp", 100000)])]
        "r" (1, 1) (1, 1) (1, 1)).result = Except.ok (7, 3) := by
  have h := (cache_validity_window 100000
      [(cacheKeyFor "r", [("additions", 7), ("deletions", 3), ("timestamp", 100000)])]
      "r" (1, 1) (1, 1) (1, 1)).1
      [("additions", 7), ("deletions", 3), ("timestamp", 100000)] rfl
      (by
        simp only [entryTimestamp, dictGet, List.find?, String.reduceEq,
          Option.map_some, Option.getD_some]
        norm_num)
  exact ⟨h.1, h.2 7 3 rfl rfl⟩

/-- C3 counterexample: a cache entry with a fresh timestamp but no
additions key makes get_repository_stats raise a KeyError instead of
treating the entry as a cache miss: no strategy is invoked and no result is
produced. -/
theorem cache_missing_key_counterexample :
    get_repository_stats 100000
        [("repo_stats_r_v2", [("timestamp", 100000), ("deletions", 5)])] "r"
        (1, 1) (1, 1) (1, 1) =
      ⟨Except.error "KeyError: additions",
        [("repo_stats_r_v2", [("timestamp", 100000), ("deletions", 5)])], []⟩ := by
  simp only [get_repository_stats, cacheKeyFor, cacheFind, dictGet, entryTimestamp,
    List.find?, String.reduceAppend, String.reduceEq,
    Option.map_some, Option.map_none, Option.getD_some, Option.getD_none]
  norm_num
  rfl

/-- C3 (amended): an entry whose timestamp key is missing is read as
timestamp 0, hence treated as stale and retriggers the cascade whenever
now is at least 86400; keys other than additions, deletions and timestamp
are never consulted, so a fresh entry carrying extra keys still returns its
additions and deletions; but a fresh entry lacking the additions key raises
a KeyError (left to the per-repository handler of the driver) instead of
being treated as a cache miss, and the cache is left unchanged by that
raise. -/
theorem cache_forward_compat_amended (now : ℚ) (cache : Cache) (repo : String)
    (s1 s2 s3 : ℤ × ℤ) (e : CacheDict)
    (hfind : cacheFind cache (cacheKeyFor repo) = some e) :
    (dictGet e "timestamp" = none → 86400 ≤ now →
      (get_repository_stats now cache repo s1 s2 s3).used.head? = some 1) ∧
    (∀ a d, now - entryTimestamp e < 86400 →
      dictGet e "additions" = some a → dictGet e "deletions" = some d →
      (get_repository_stats now cache repo s1 s2 s3).result = Except.ok (a, d)) ∧
    (now - entryTimestamp e < 86400 → dictGet e "additions" = none →
      (get_repository_stats now cache repo s1 s2 s3).result =
          Except.error "KeyError: additions" ∧
        (get_repository_stats now cache repo s1 s2 s3).cache = cache) := by
  refine ⟨fun hts hnow => ?_, fun a d hfresh ha hd => ?_, fun hfresh ha => ?_⟩
  · have hstale : ¬(now - entryTimestamp e < 86400) := by
      rw [entryTimestamp, hts, Option.getD_none, sub_zero]
      exact not_lt.mpr hnow
    simp only [get_repository_stats, hfind]
    rw [if_neg hstale]
    by_cases h1 : s1.1 = 0 ∧ s1.2 = 0
    · by_cases h2 : s2.1 = 0 ∧ s2.2 = 0
      · rw [if_pos h1, if_pos h2]
        rfl
      · rw [if_pos h1, if_neg h2]
        rfl
    · rw [if_neg h1]
      rfl
  · simp only [get_repository_stats, hfind]
    rw [if_pos hfresh, ha, hd]
  · simp only [get_repository_stats, hfind]
    rw [if_pos hfresh, ha]
    exact ⟨rfl, rfl⟩

theorem cache_forward_compat_amended_witness :
    (get_repository_stats 100000
        [(cacheKeyFor "r", [("timestamp", 100000), ("deletions", 5)])] "r"
        (1, 1) (1, 1) (1, 1)).result = Except.error "KeyError: additions" ∧
    (get_repository_stats 100000
        [(cacheKeyFor "r", [("timestamp", 100000), ("deletions", 5)])] "r"
        (1, 1) (1, 1) (1, 1)).cache =
      [(cacheKeyFor "r", [("timestamp", 100000), ("deletions", 5)])] :=
  (cache_forward_compat_amended 100000
      [(cacheKeyFor "r", [("timestamp", 100000), ("deletions", 5)])] "r"
      (1, 1) (1, 1) (1, 1) [("timestamp", 100000), ("deletions", 5)] rfl).2.2
    (by
        simp only [entryTimestamp, dictGet, List.find?, String.reduceEq,
          Option.map_some, Option.getD_some]
        norm_num) rfl

/-- C10: when the cache holds a fresh entry for the repository, the call
leaves the cache mapping completely unchanged; in particular the entry's
timestamp is not refreshed. -/
theorem valid_cache_hit_frame (now : ℚ) (cache : Cache) (repo : String)
    (s1 s2 s3 : ℤ × ℤ) (e : CacheDict)
    (hfind : cacheFind cache (cacheKeyFor repo) = some e)
    (hfresh : now - entryTimestamp e < 86400) :
    (get_repository_stats now cache repo s1 s2 s3).cache = cache := by
  simp only [get_repository_stats, hfind]
  rw [if_pos hfresh]
  cases dictGet e "additions" with
  | none => rfl
  | some a =>
    cases dictGet e "deletions" with
    | none => rfl
    | some d => rfl

theorem valid_cache_hit_frame_witness :
    (get_repository_stats 100000
        [(cacheKeyFor "r", [("additions", 7), ("deletions", 3), ("timestamp", 100000)])]
        "r" (1, 1) (1, 1) (1, 1)).cache =
      [(cacheKeyFor "r", [("additions", 7), ("deletions", 3), ("timestamp", 100000)])] :=
  valid_cache_hit_frame 100000
    [(cacheKeyFor "r", [("additions", 7), ("deletions", 3), ("timestamp", 100000)])]
    "r" (1, 1) (1, 1) (1, 1)
    [("additions", 7), ("deletions", 3), ("timestamp", 100000)] rfl
    (by
        simp only [entryTimestamp, dictGet, List.find?, String.reduceEq,
          Option.map_some, Option.getD_some]
        norm_num)

/-- C5: a 403 response carrying the rate-limit marker makes the client wait
max(reset_time - int(now), 60) seconds, so a reset header implying less
than 60 (for instance now + 5) still yields a wait of exactly 60; after the
sleep the identical request (same url, params and allow_non_200 flag) is
retried against the rest of the script. -/
theorem rate_limit_wait_and_retry (url : String) (params : List (String × String))
    (allow_non_200 : Bool) (r : HttpResponse) (rest : List HttpResponse) (now : ℚ)
    (h403 : r.status = 403) (hmark : r.hasRateLimitMarker = true) :
    60 ≤ max (r.rateLimitReset - pyInt now) 60 ∧
    (r.rateLimitReset - pyInt now < 60 → max (r.rateLimitReset - pyInt now) 60 = 60) ∧
    _make_request url params allow_non_200 (r :: rest) now =
      ⟨(_make_request url params allow_non_200 rest
          (now + ((max (r.rateLimitReset - pyInt now) 60 : ℤ) : ℚ))).response,
        NetEvent.get url params ::
          NetEvent.sleep ((max (r.rateLimitReset - pyInt now) 60 : ℤ) : ℚ) ::
          (_make_request url params allow_non_200 rest
            (now + ((max (r.rateLimitReset - pyInt now) 60 : ℤ) : ℚ))).events,
        (_make_request url params allow_non_200 rest
          (now + ((max (r.rateLimitReset - pyInt now) 60 : ℤ) : ℚ))).remaining,
        (_make_request url params allow_non_200 rest
          (now + ((max (r.rateLimitReset - pyInt now) 60 : ℤ) : ℚ))).clock⟩ := by
  refine ⟨le_max_right _ _, fun h => max_eq_right (le_of_lt h), ?_⟩
  rw [_make_request, if_pos ⟨h403, hmark⟩]

theorem rate_limit_wait_and_retry_witness :
    max ((1005 : ℤ) - pyInt 1000) 60 = 60 ∧
    _make_request "u" [] true [⟨403, true, 1005⟩] 1000 =
      ⟨(_make_request "u" [] true []
          (1000 + ((max ((1005 : ℤ) - pyInt 1000) 60 : ℤ) : ℚ))).response,
        NetEvent.get "u" [] ::
          NetEvent.sleep ((max ((1005 : ℤ) - pyInt 1000) 60 : ℤ) : ℚ) ::
          (_make_request "u" [] true []
            (1000 + ((max ((1005 : ℤ) - pyInt 1000) 60 : ℤ) : ℚ))).events,
        (_make_request "u" [] true []
          (1000 + ((max ((1005 : ℤ) - pyInt 1000) 60 : ℤ) : ℚ))).remaining,
        (_make_request "u" [] true []
          (1000 + ((max ((1005 : ℤ) - pyInt 1000) 60 : ℤ) : ℚ))).clock⟩ :=
  have h := rate_limit_wait_and_retry "u" [] true ⟨403, true, 1005⟩ [] 1000 rfl rfl
  ⟨h.2.1 (by decide), h.2.2⟩

/-- C6 counterexample: with allow_non_200 = false, a 404 response is
obtained and consumed by the client (the script is drained) yet the call
returns absent immediately: its event trace is just the GET, with no
inter-request sleep before control returns to the caller. -/
theorem non200_no_delay_counterexample :
    _make_request "u" [] false [⟨404, false, 0⟩] 0 =
      ⟨none, [NetEvent.get "u" []], [], 0⟩ := by
  rfl

/-- C6 (amended): outside the rate-limit case, the fixed inter-request
delay follows exactly those calls that hand a response object back to the
caller: any status when allow_non_200 is true, and status 200 otherwise;
a call with allow_non_200 false whose status is not 200 yields absent with
no delay at all. -/
theorem request_delay_discipline (url : String) (params : List (String × String))
    (allow : Bool) (r : HttpResponse) (rest : List HttpResponse) (now : ℚ)
    (hrl : ¬(r.status = 403 ∧ r.hasRateLimitMarker = true)) :
    ((allow = true ∨ r.status = 200) →
      _make_request url params allow (r :: rest) now =
        ⟨some r, [NetEvent.get url params, NetEvent.sleep RATE_LIMIT_DELAY], rest,
          now + RATE_LIMIT_DELAY⟩) ∧
    ((allow = false ∧ r.status ≠ 200) →
      _make_request url params allow (r :: rest) now =
        ⟨none, [NetEvent.get url params], rest, now⟩) := by
  constructor
  · rintro (ha | h200)
    · rw [_make_request, if_neg hrl, if_pos ha]
    · rcases ha : allow with _ | _
      · rw [_make_request, if_neg hrl, if_neg (by simp), if_pos h200]
      · rw [_make_request, if_neg hrl, if_pos rfl]
  · rintro ⟨ha, h200⟩
    rw [_make_request, if_neg hrl, if_neg (by simp [ha]), if_neg h200]

theorem request_delay_discipline_witness :
    _make_request "u" [] false [⟨200, false, 0⟩] 0 =
      ⟨some ⟨200, false, 0⟩, [NetEvent.get "u" [], NetEvent.sleep RATE_LIMIT_DELAY], [],
        0 + RATE_LIMIT_DELAY⟩ :=
  (request_delay_discipline "u" [] false ⟨200, false, 0⟩ [] 0 (by decide)).1 (Or.inr rfl)

/-- C7: on a 200 from the contributor-activity endpoint the strategy scans
the records for the first one whose author login equals the username and
returns its summed weekly additions and deletions, (0, 0) when no record
matches; in particular week data (a 50, d 10) and (a 30, d 5) for the user
yields (80, 15). -/
theorem contributors_scan (username : String) (cs : List ContributorData)
    (rest : List (Option StatsHttp)) :
    ((_get_stats_from_contributors_with_retry username
        (some ⟨200, cs⟩ :: rest)).1 =
      match cs.find? (contributorMatches username) with
      | some c => (contributorAdditions c, contributorDeletions c)
      | none => (0, 0)) ∧
    ((∀ c ∈ cs, contributorMatches username c = false) →
      (_get_stats_from_contributors_with_retry username
        (some ⟨200, cs⟩ :: rest)).1 = (0, 0)) ∧
    (_get_stats_from_contributors_with_retry username
        (some ⟨200,
          [⟨some ⟨some username⟩, some [⟨some 50, some 10⟩, ⟨some 30, some 5⟩]⟩]⟩ ::
          rest)).1 = (80, 15) := by
  have hgen : ∀ ds : List ContributorData,
      (_get_stats_from_contributors_with_retry username (some ⟨200, ds⟩ :: rest)).1 =
        match ds.find? (contributorMatches username) with
        | some c => (contributorAdditions c, contributorDeletions c)
        | none => (0, 0) := by
    intro ds
    rw [← scanContributors_eq_find]
    by_cases hds : ds = []
    · subst hds
      rfl
    · simp [_get_stats_from_contributors_with_retry, MAX_STATS_RETRIES,
        contribAttemptLoop, hds]
  refine ⟨hgen cs, fun hnone => ?_, ?_⟩
  · rw [hgen cs, List.find?_eq_none.mpr ?_]
    intro c hc
    simp [hnone c hc]
  · rw [hgen]
    simp [List.find?, contributorMatches, contributorAdditions, contributorDeletions]

theorem contributors_scan_witness :
    (_get_stats_from_contributors_with_retry "alice"
        (some ⟨200, [⟨none, none⟩]⟩ :: [])).1 = (0, 0) ∧
    (_get_stats_from_contributors_with_retry "alice"
        (some ⟨200,
          [⟨some ⟨some "alice"⟩, some [⟨some 50, some 10⟩, ⟨some 30, some 5⟩]⟩]⟩ ::
          [])).1 = (80, 15) :=
  ⟨(contributors_scan "alice" [⟨none, none⟩] []).2.1 (by decide),
    (contributors_scan "alice" [] []).2.2⟩

/-- C8: when the contributor-activity endpoint answers 202 on six
consecutive polls, the strategy makes exactly six attempts, sleeping
STATS_RETRY_DELAY after each 202, consumes exactly those six responses, and
returns (0, 0) rather than raising. -/
theorem contributors_202_exhaustion (username : String)
    (r1 r2 r3 r4 r5 r6 : StatsHttp) (rest : List (Option StatsHttp))
    (h1 : r1.status = 202) (h2 : r2.status = 202) (h3 : r3.status = 202)
    (h4 : r4.status = 202) (h5 : r5.status = 202) (h6 : r6.status = 202) :
    _get_stats_from_contributors_with_retry username
        (some r1 :: some r2 :: some r3 :: some r4 :: some r5 :: some r6 :: rest) =
      ((0, 0),
        [StratEvent.poll, StratEvent.sleep STATS_RETRY_DELAY,
          StratEvent.poll, StratEvent.sleep STATS_RETRY_DELAY,
          StratEvent.poll, StratEvent.sleep STATS_RETRY_DELAY,
          StratEvent.poll, StratEvent.sleep STATS_RETRY_DELAY,
          StratEvent.poll, StratEvent.sleep STATS_RETRY_DELAY,
          StratEvent.poll, StratEvent.sleep STATS_RETRY_DELAY], rest) := by
  simp [_get_stats_from_contributors_with_retry, MAX_STATS_RETRIES, contribAttemptLoop,
    h1, h2, h3, h4, h5, h6]

theorem contributors_202_exhaustion_witness :
    _get_stats_from_contributors_with_retry "alice"
        (some ⟨202, []⟩ :: some ⟨202, []⟩ :: some ⟨202, []⟩ :: some ⟨202, []⟩ ::
          some ⟨202, []⟩ :: some ⟨202, []⟩ :: []) =
      ((0, 0),
        [StratEvent.poll, StratEvent.sleep STATS_RETRY_DELAY,
          StratEvent.poll, StratEvent.sleep STATS_RETRY_DELAY,
          StratEvent.poll, StratEvent.sleep STATS_RETRY_DELAY,
          StratEvent.poll, StratEvent.sleep STATS_RETRY_DELAY,
          StratEvent.poll, StratEvent.sleep STATS_RETRY_DELAY,
          StratEvent.poll, StratEvent.sleep STATS_RETRY_DELAY], []) :=
  contributors_202_exhaustion "alice" ⟨202, []⟩ ⟨202, []⟩ ⟨202, []⟩ ⟨202, []⟩
    ⟨202, []⟩ ⟨202, []⟩ [] rfl rfl rfl rfl rfl rfl

/-- C4: on a 200 from the code-frequency endpoint with (well-formed,
non-empty) weekly data and a non-empty user commit sample, the strategy
returns the repository-wide totals scaled by min(sample size / 100, 0.5)
and truncated to integers, where the addition total is the sum of the
weekly addition values and the deletion total is the absolute value of the
sum of the (negative) weekly deletion values. -/
theorem code_frequency_estimate (sample : List CommitStub) (weeks : List (List ℤ))
    (rest : List (Option FreqHttp)) (hw : weeks ≠ []) (hs : sample ≠ [])
    (hwf : ∀ w ∈ weeks, w.length = 3) :
    (_get_stats_from_code_frequency sample (some ()) (some ⟨200, weeks⟩ :: rest)).1 =
      (pyInt (((weeks.map (fun w => w.getD 1 0)).sum : ℚ) *
          min ((sample.length : ℚ) / 100) (1 / 2)),
        pyInt ((|(weeks.map (fun w => w.getD 2 0)).sum| : ℚ) *
          min ((sample.length : ℚ) / 100) (1 / 2))) := by
  have hfa : weeks.filter (fun w => 2 ≤ w.length) = weeks :=
    List.filter_eq_self.mpr (fun w hmem => by simp [hwf w hmem])
  have hfd : weeks.filter (fun w => 3 ≤ w.length) = weeks :=
    List.filter_eq_self.mpr (fun w hmem => by simp [hwf w hmem])
  have hlen : 0 < sample.length := List.length_pos.mpr hs
  simp [_get_stats_from_code_frequency, MAX_STATS_RETRIES, codeFreqLoop, hw, hs,
    hlen, totalWeekAdditions, totalWeekDeletions, hfa, hfd]
  exact ⟨rfl, rfl⟩

theorem code_frequency_estimate_witness :
    (_get_stats_from_code_frequency
        [⟨"s0"⟩, ⟨"s1"⟩, ⟨"s2"⟩, ⟨"s3"⟩, ⟨"s4"⟩, ⟨"s5"⟩, ⟨"s6"⟩, ⟨"s7"⟩, ⟨"s8"⟩, ⟨"s9"⟩]
        (some ()) (some ⟨200, [[0, 100, -40], [1, 60, -10]]⟩ :: [])).1 = (16, 5) := by
  have h := code_frequency_estimate
    [⟨"s0"⟩, ⟨"s1"⟩, ⟨"s2"⟩, ⟨"s3"⟩, ⟨"s4"⟩, ⟨"s5"⟩, ⟨"s6"⟩, ⟨"s7"⟩, ⟨"s8"⟩, ⟨"s9"⟩]
    [[0, 100, -40], [1, 60, -10]] [] (by decide) (by decide) (by decide)
  rw [h]
  norm_num [pyInt]

/-- C9: even when the code-frequency endpoint returns 200 with non-empty
data and the user sample is non-empty, the strategy issues one extra
request for the repository commit listing, and when that request yields
absent the strategy returns (0, 0). -/
theorem code_frequency_absent_listing (sample : List CommitStub)
    (weeks : List (List ℤ)) (rest : List (Option FreqHttp))
    (hw : weeks ≠ []) (hs : sample ≠ []) :
    _get_stats_from_code_frequency sample none (some ⟨200, weeks⟩ :: rest) =
      ((0, 0), [StratEvent.poll], rest) := by
  have hlen : 0 < sample.length := List.length_pos.mpr hs
  simp [_get_stats_from_code_frequency, MAX_STATS_RETRIES, codeFreqLoop, hw, hs, hlen]

theorem code_frequency_absent_listing_witness :
    _get_stats_from_code_frequency [⟨"s0"⟩] none
        (some ⟨200, [[0, 100, -40]]⟩ :: []) =
      ((0, 0), [StratEvent.poll], []) :=
  code_frequency_absent_listing [⟨"s0"⟩] [[0, 100, -40]] [] (by decide) (by decide)

end LifetimeGithubStats
